import Mathlib

/-!
Verification of the clawctl coordination engine and dashboard server.

The repository ships the dashboard HTTP layer (`dashboard/server.py`) and the
test suite; the database layer `clawctl/db.py` is not part of the sources, so
its operations are modelled from the specification (section 4.1 of the spec),
each such definition carrying a doc comment that says so. The dashboard
handlers (`check_token`, the complete and reset endpoints) are embedded
directly from `dashboard/server.py`.

State is a pure record; every engine write operation is one function
`DB → Result × DB`, which is exactly the atomicity model the spec demands
(each write is a single transaction, so concurrent executions serialize).
-/

namespace Clawctl

/-- Task lifecycle states (spec section 4.1). -/
inductive Status where
  | pending
  | claimed
  | inProgress
  | review
  | blocked
  | done
  | cancelled
deriving DecidableEq

/-- Agent availability states (spec section 3). -/
inductive AgentStatus where
  | idle
  | busy
deriving DecidableEq

/-- Message kinds (spec section 3). -/
inductive MsgType where
  | comment
  | status
  | alert
deriving DecidableEq

/-- A task row (spec section 3). Timestamps are abstract ticks. -/
structure Task where
  id : Nat
  subject : String
  status : Status
  owner : Option String
  priority : Int
  createdBy : String
  parentId : Option Nat
  claimedAt : Option Nat
  completedAt : Option Nat
  updatedAt : Nat
deriving DecidableEq

/-- An agent row (spec section 3). -/
structure Agent where
  name : String
  role : String
  status : AgentStatus
  lastSeen : Nat
deriving DecidableEq

/-- A message row (spec section 3); `toAgent = none` denotes a broadcast. -/
structure Message where
  id : Nat
  fromAgent : String
  toAgent : Option String
  body : String
  msgType : MsgType
  taskId : Option Nat
  readAt : Option Nat
deriving DecidableEq

/-- An activity-ledger row (spec section 3); append-only. -/
structure Activity where
  agent : String
  action : String
  entityType : String
  entityId : Nat
  detail : String
deriving DecidableEq

/-- The persisted state: the five relations plus an abstract clock. -/
structure DB where
  tasks : List Task
  deps : List (Nat × Nat)
  messages : List Message
  agents : List Agent
  activity : List Activity
  now : Nat
deriving DecidableEq

/-- Result of an engine write: success flag plus optional reason or info. -/
abbrev Result := Bool × Option String

/-- Look a task up by id. -/
def findTask (s : DB) (i : Nat) : Option Task :=
  s.tasks.find? (fun t => t.id == i)

/-- Rewrite the task with the given id in place, leaving other rows alone. -/
def setTask (ts : List Task) (i : Nat) (f : Task → Task) : List Task :=
  ts.map (fun t => if t.id == i then f t else t)

/-- Append one activity record (spec section 4.5). -/
def log_activity (s : DB) (agent action entityType : String) (entityId : Nat)
    (detail : String) : DB :=
  { s with activity := s.activity ++ [⟨agent, action, entityType, entityId, detail⟩] }

/-- An agent is busy exactly when it owns some task in progress
(spec section 4.6: status is reconciled from task ownership). -/
def derive_status (ts : List Task) (name : String) : AgentStatus :=
  if ts.any (fun t => decide (t.owner = some name ∧ t.status = Status.inProgress))
  then AgentStatus.busy else AgentStatus.idle

/-- Set an agent row status to the value derived from current task ownership. -/
def reconcile_agent (s : DB) (name : String) : DB :=
  { s with agents :=
      s.agents.map (fun a =>
        if a.name == name then { a with status := derive_status s.tasks name } else a) }

/-- Modelled from the spec: `claim_task` of the absent `clawctl/db.py`.
Spec section 4.1: precondition task exists; owner null or owner = agent or
force gives owner := agent, status `claimed`, claimed_at set; otherwise the
call fails with "already claimed by owner"; a missing task fails "not found".
The check and the update are one atomic transaction, here one pure function. -/
def claim_task (s : DB) (i : Nat) (agent : String) (force : Bool) : Result × DB :=
  match findTask s i with
  | none => ((false, some "not found"), s)
  | some t =>
    if t.owner = none ∨ t.owner = some agent ∨ force = true then
      let s1 := { s with tasks := setTask s.tasks i (fun u =>
        { u with owner := some agent, status := Status.claimed,
                 claimedAt := some s.now, updatedAt := s.now }) }
      ((true, none), log_activity s1 agent "task_claimed" "task" i t.subject)
    else
      ((false, some ("already claimed by " ++ (t.owner.getD ""))), s)

/-- Modelled from the spec: `send_message` of the absent `clawctl/db.py`;
spec section 4.4: persists a message, `toAgent = none` denotes a broadcast. -/
def send_message (s : DB) (fromAgent : String) (toAgent : Option String)
    (body : String) (msgType : MsgType) (taskId : Option Nat) : DB :=
  { s with messages :=
      s.messages ++ [⟨s.messages.length + 1, fromAgent, toAgent, body, msgType, taskId, none⟩] }

/-- Modelled from the spec: `complete_task` of the absent `clawctl/db.py`.
Spec section 4.1: a missing task fails "not found"; an already done task is
idempotent, returning success with info "already done" and changing nothing
(section 7: callers can safely retry without branching on prior state);
otherwise owner = agent or force sets status `done` and completed_at, emits a
status-type message when a note is given, and re-derives the agent status;
a non-owner without force fails "not owned by you". -/
def complete_task (s : DB) (i : Nat) (agent : String) (note : String)
    (force : Bool) : Result × DB :=
  match findTask s i with
  | none => ((false, some "not found"), s)
  | some t =>
    if t.status = Status.done then
      ((true, some "already done"), s)
    else if t.owner = some agent ∨ force = true then
      let s1 := { s with tasks := setTask s.tasks i (fun u =>
        { u with status := Status.done, completedAt := some s.now, updatedAt := s.now }) }
      let s2 := if note = "" then s1
                else send_message s1 agent none note MsgType.status (some i)
      let s3 := reconcile_agent s2 agent
      ((true, none), log_activity s3 agent "task_completed" "task" i t.subject)
    else
      ((false, some "not owned by you"), s)

/-- Modelled from the spec: `cancel_task` of the absent `clawctl/db.py`.
Spec section 4.1: no precondition, sets status `cancelled`; a missing task
fails "not found"; cancelling a terminal done task is idempotent, returning
success with info "already done" instead of changing status. -/
def cancel_task (s : DB) (i : Nat) (agent : String) : Result × DB :=
  match findTask s i with
  | none => ((false, some "not found"), s)
  | some t =>
    if t.status = Status.done then
      ((true, some "already done"), s)
    else
      let s1 := { s with tasks := setTask s.tasks i (fun u =>
        { u with status := Status.cancelled, updatedAt := s.now }) }
      ((true, none), log_activity s1 agent "task_cancelled" "task" i t.subject)

/-- Modelled from the spec: `block_task` of the absent `clawctl/db.py`.
Spec section 4.1: when the edge is not already present, inserts the
dependency edge and forces the task status to `blocked` regardless of prior
status; a duplicate edge fails "already exists" (the unique-constraint
violation is mapped to a domain error, not raised). -/
def block_task (s : DB) (i : Nat) (blockedBy : Nat) : Result × DB :=
  if (i, blockedBy) ∈ s.deps then
    ((false, some "already exists"), s)
  else
    let s1 := { s with deps := s.deps ++ [(i, blockedBy)],
                       tasks := setTask s.tasks i (fun u =>
                         { u with status := Status.blocked, updatedAt := s.now }) }
    ((true, none), log_activity s1 "" "task_blocked" "task" i "")

/-- Modelled from the spec: `reset_task` of the absent `clawctl/db.py`.
Spec section 4.1: precondition status terminal or force; resets status to
`pending` and clears owner, claimed_at and completed_at; a missing task fails
"not found"; a non-terminal task without force is a conflict. -/
def reset_task (s : DB) (i : Nat) (agent : String) (force : Bool) : Result × DB :=
  match findTask s i with
  | none => ((false, some "not found"), s)
  | some t =>
    if t.status = Status.done ∨ t.status = Status.cancelled ∨ force = true then
      let s1 := { s with tasks := setTask s.tasks i (fun u =>
        { u with status := Status.pending, owner := none,
                 claimedAt := none, completedAt := none, updatedAt := s.now }) }
      ((true, none), log_activity s1 agent "task_reset" "task" i t.subject)
    else
      ((false, some "not terminal"), s)

/-- Lexicographic preference used by next-task selection: higher priority
first, then lower id (creation order) first. -/
def prefBefore (a b : Task) : Prop :=
  b.priority < a.priority ∨ (a.priority = b.priority ∧ a.id ≤ b.id)

instance (a b : Task) : Decidable (prefBefore a b) := by
  unfold prefBefore; infer_instance

/-- Keep the preferred of a candidate task and a previous best, if any. -/
def pickBetter (a : Task) : Option Task → Option Task
  | none => some a
  | some u => if prefBefore a u then some a else some u

/-- Pick the task preferred by `prefBefore` out of a candidate list. -/
def pickBest : List Task → Option Task
  | [] => none
  | t :: ts => pickBetter t (pickBest ts)

/-- Modelled from the spec: `get_next_task` of the absent `clawctl/db.py`.
Spec section 4.2: if the agent owns a task in progress, return it; else
return the unowned pending task ordered by priority descending then creation
order ascending; else none. -/
def get_next_task (s : DB) (agent : String) : Option Task :=
  match s.tasks.find? (fun t => decide (t.owner = some agent ∧ t.status = Status.inProgress)) with
  | some t => some t
  | none => pickBest (s.tasks.filter (fun t => decide (t.owner = none ∧ t.status = Status.pending)))

/-- Modelled from the spec: `get_unread_count` of the absent `clawctl/db.py`.
Spec section 4.4: counts only direct unread messages (to = agent and read_at
null), excluding broadcasts. -/
def get_unread_count (s : DB) (agent : String) : Nat :=
  (s.messages.filter (fun m => decide (m.toAgent = some agent ∧ m.readAt = none))).length

/-- Concrete fixture: an unowned pending task, like task 1 of the seeded test
database in `tests/conftest.py`. -/
def taskFree : Task :=
  ⟨1, "Design the API", Status.pending, none, 1, "alice", none, none, none, 7⟩

/-- Concrete fixture: a task claimed by bob. -/
def taskOwned : Task :=
  ⟨2, "Write the docs", Status.claimed, some "bob", 0, "alice", none, some 3, none, 7⟩

/-- Concrete fixture: a finished task. -/
def taskDone : Task :=
  ⟨3, "Ship it", Status.done, some "alice", 2, "alice", none, some 3, some 4, 7⟩

/-- Concrete fixture: a task bob is working on. -/
def taskInProg : Task :=
  ⟨4, "Implement auth", Status.inProgress, some "bob", 2, "alice", none, some 3, none, 7⟩

/-- Concrete fixture: a second unowned pending task, lower priority. -/
def taskPend2 : Task :=
  ⟨5, "Update readme", Status.pending, none, 0, "alice", none, none, none, 7⟩

/-- Concrete fixture: a direct message to bob, unread. -/
def msgDirect : Message :=
  ⟨1, "alice", some "bob", "Please review the auth design", MsgType.comment, none, none⟩

/-- Concrete fixture: a broadcast, unread. -/
def msgBroadcast : Message :=
  ⟨2, "alice", none, "Sprint starts Monday", MsgType.alert, none, none⟩

/-- Concrete fixture database used to instantiate the theorems below. -/
def dbW : DB :=
  ⟨[taskFree, taskOwned, taskDone, taskInProg, taskPend2], [],
   [msgDirect, msgBroadcast], [], [], 9⟩

end Clawctl

namespace Dashboard

open Clawctl

/-- An incoming HTTP request: its path and the token query parameter, absent
when the caller supplied none (`request.args.get` in `dashboard/server.py`). -/
structure Request where
  path : String
  token : Option String
deriving DecidableEq

/-- A short HTTP reply: status code and body marker. -/
structure Reply where
  status : Nat
  body : String
deriving DecidableEq

/-- The 401 reply produced by the auth hook (`server.py` line 44). -/
def unauthorizedReply : Reply := ⟨401, "unauthorized"⟩

/-- The Python str.startswith test, as a prefix check on character
sequences. -/
def strStartsWith (s pre : String) : Bool :=
  pre.data.isPrefixOf s.data

/-- The Python str.endswith test, as a suffix check on character
sequences. -/
def strEndsWith (s suf : String) : Bool :=
  suf.data.isSuffixOf s.data

/-- The auth hook of `dashboard/server.py` (`check_token`, lines 38 to 44),
registered as a before-request hook: returning `some` reply short-circuits
request handling so no route handler runs; returning `none` lets the request
through. The root path and html paths pass untouched; api paths must carry
the exact token as a query parameter. -/
def check_token (TOKEN : String) (req : Request) : Option Reply :=
  if req.path == "/" || strEndsWith req.path ".html" then
    none
  else if strStartsWith req.path "/api" then
    if req.token == some TOKEN then none else some unauthorizedReply
  else
    none

/-- The optional JSON body of a mutating dashboard request: absent fields are
read with `data.get` defaults in `dashboard/server.py`. -/
structure ReqBody where
  agent : Option String
  note : Option String
  reason : Option String
  force : Option Bool
deriving DecidableEq

/-- A JSON API reply: status code and the success flag of the payload. -/
structure ApiReply where
  status : Nat
  success : Bool
deriving DecidableEq

/-- The complete endpoint of `dashboard/server.py` (lines 102 to 109): reads
the note and agent from the body with defaults, calls the engine complete
with force always true, ignores the engine result, and replies 200 success. -/
def complete_endpoint (s : DB) (taskId : Nat) (body : ReqBody) : DB × ApiReply :=
  let note := body.note.getD ""
  let agent := body.agent.getD "dashboard"
  let s1 := (complete_task s taskId agent note true).2
  (s1, ⟨200, true⟩)

/-- The reset endpoint of `dashboard/server.py` (lines 136 to 145): reads the
agent and the force flag from the body, force defaulting to true when the
body omits it, calls the engine reset, and maps an engine failure to a 409
conflict reply. -/
def reset_endpoint (s : DB) (taskId : Nat) (body : ReqBody) : DB × ApiReply :=
  let agent := body.agent.getD "dashboard"
  let force := body.force.getD true
  let r := reset_task s taskId agent force
  if r.1.1 then (r.2, ⟨200, true⟩) else (r.2, ⟨409, false⟩)

end Dashboard

namespace Clawctl

/-- Rewriting one task leaves lookup of that id pointing at the rewritten
row, provided the rewrite keeps the id. -/
theorem find?_setTask (ts : List Task) (i : Nat) (f : Task → Task)
    (hf : ∀ t, (f t).id = t.id) :
    (setTask ts i f).find? (fun t => t.id == i) = (ts.find? (fun t => t.id == i)).map f := by
  unfold setTask
  rw [List.find?_map]
  have hp : ((fun t : Task => t.id == i) ∘ (fun t => if t.id == i then f t else t)) =
      (fun t : Task => t.id == i) := by
    funext t
    by_cases h : (t.id == i) = true
    · show ((if t.id == i then f t else t).id == i) = (t.id == i)
      rw [if_pos h, hf]
    · show ((if t.id == i then f t else t).id == i) = (t.id == i)
      rw [if_neg h]
  rw [hp]
  cases hfind : ts.find? (fun t => t.id == i) with
  | none => rfl
  | some t =>
    have hp2 := List.find?_some hfind
    show some (if t.id == i then f t else t) = some (f t)
    rw [if_pos hp2]

/-- Task lookup after a task rewrite, stated on whole states. -/
theorem findTask_setTask (s : DB) (l : List (Nat × Nat)) (i : Nat) (f : Task → Task)
    (hf : ∀ t, (f t).id = t.id) :
    findTask { s with tasks := setTask s.tasks i f, deps := l } i =
      (findTask s i).map f :=
  find?_setTask s.tasks i f hf

/-- Appending an activity record does not move any task row. -/
theorem findTask_log_activity (s : DB) (agent action entityType : String)
    (entityId : Nat) (detail : String) (i : Nat) :
    findTask (log_activity s agent action entityType entityId detail) i = findTask s i := rfl

/-- Successful claim: when the task exists and the owner gate passes, the
result is ok and the task row ends claimed by the agent. -/
theorem claim_task_succeeds (s : DB) (i : Nat) (a : String) (force : Bool) (t : Task)
    (ht : findTask s i = some t)
    (hc : t.owner = none ∨ t.owner = some a ∨ force = true) :
    (claim_task s i a force).1 = (true, none) ∧
    findTask (claim_task s i a force).2 i =
      some
        { t with owner := some a, status := Status.claimed,
                 claimedAt := some s.now, updatedAt := s.now } := by
  constructor
  · simp [claim_task, ht, hc]
  · have h2 : (claim_task s i a force).2 =
        log_activity { s with tasks := setTask s.tasks i (fun u =>
          { u with owner := some a, status := Status.claimed,
                   claimedAt := some s.now, updatedAt := s.now }) }
          a "task_claimed" "task" i t.subject := by
      simp [claim_task, ht, hc]
    rw [h2, findTask_log_activity]
    show (setTask s.tasks i _).find? (fun u => u.id == i) = _
    rw [find?_setTask s.tasks i (fun u =>
      { u with owner := some a, status := Status.claimed,
               claimedAt := some s.now, updatedAt := s.now }) (fun _ => rfl)]
    unfold findTask at ht
    rw [ht]
    rfl

/-- Failing claim: a task owned by a different agent, claimed without force,
leaves the state untouched and reports the current owner. -/
theorem claim_task_fails (s : DB) (i : Nat) (a o : String) (t : Task)
    (ht : findTask s i = some t) (hown : t.owner = some o) (hoa : o ≠ a) :
    claim_task s i a false = ((false, some ("already claimed by " ++ o)), s) := by
  simp only [claim_task, ht]
  rw [if_neg (by simp [hown, hoa, Option.some_inj])]
  rw [hown]
  rfl

/-- C2: for an existing task, claim succeeds exactly when the owner is null,
is the calling agent, or force is set, and then the task ends owned by the
agent in status claimed with claimed_at set; a foreign owner without force
yields ok false with reason "already claimed by" the owner and an unchanged
state; a missing task yields ok false, reason "not found". -/
theorem claim_task_correct (s : DB) (i : Nat) (a : String) (force : Bool) :
    (findTask s i = none →
       claim_task s i a force = ((false, some "not found"), s))
  ∧ (∀ t, findTask s i = some t →
       (((claim_task s i a force).1.1 = true) ↔
          (t.owner = none ∨ t.owner = some a ∨ force = true))
     ∧ ((t.owner = none ∨ t.owner = some a ∨ force = true) →
          ∃ t', findTask (claim_task s i a force).2 i = some t' ∧
            t'.owner = some a ∧ t'.status = Status.claimed ∧
            t'.claimedAt = some s.now)
     ∧ (t.owner ≠ none → t.owner ≠ some a → force = false →
          ∃ o, t.owner = some o ∧
            claim_task s i a force = ((false, some ("already claimed by " ++ o)), s))) := by
  refine ⟨fun h => by simp [claim_task, h], fun t ht => ?_⟩
  by_cases hc : t.owner = none ∨ t.owner = some a ∨ force = true
  · obtain ⟨hok, hfind⟩ := claim_task_succeeds s i a force t ht hc
    refine ⟨?_, fun _ => ⟨_, hfind, rfl, rfl, rfl⟩, ?_⟩
    · rw [show (claim_task s i a force).1.1 = true from by rw [hok]]
      simp only [true_iff]
      exact hc
    · intro h1 h2 h3
      rcases hc with h | h | h
      · exact absurd h h1
      · exact absurd h h2
      · rw [h3] at h; exact absurd h (by simp)
  · push_neg at hc
    obtain ⟨h1, h2, h3⟩ := hc
    obtain ⟨o, ho⟩ := Option.ne_none_iff_exists.mp h1
    have hforce : force = false := by
      cases force
      · rfl
      · exact absurd rfl h3
    have hoa : o ≠ a := fun h => h2 (h ▸ ho.symm)
    have hres := claim_task_fails s i a o t ht ho.symm hoa
    rw [hforce]
    refine ⟨?_, ?_, fun _ _ _ => ⟨o, ho.symm, hres⟩⟩
    · rw [hres]
      constructor
      · intro h; exact absurd h (by simp)
      · rintro (h | h | h)
        · exact absurd h h1
        · exact absurd h h2
        · exact absurd h (by simp)
    · rintro (h | h | h)
      · exact absurd h h1
      · exact absurd h h2
      · exact absurd h (by simp)

/-- C2 witness: claiming the unowned fixture task 1 as alice lands it owned
by alice in status claimed; claiming the missing id 99 reports not found. -/
theorem claim_task_correct_witness :
    (∃ t', findTask (claim_task dbW 1 "alice" false).2 1 = some t' ∧
       t'.owner = some "alice" ∧ t'.status = Status.claimed ∧
       t'.claimedAt = some dbW.now) ∧
    claim_task dbW 99 "alice" false = ((false, some "not found"), dbW) :=
  ⟨((claim_task_correct dbW 1 "alice" false).2 taskFree (by decide)).2.1
      (Or.inl (by decide)),
   (claim_task_correct dbW 99 "alice" false).1 (by decide)⟩

/-- C1: two racing non-forced claims on an existing unowned task serialize
into two atomic transactions in some order; in every order (the agents are
universally quantified, so both interleavings are covered) the first claim
wins and the second fails with a conflict naming the winning owner, so
exactly one of the two callers succeeds. -/
theorem claim_exclusive (s : DB) (i : Nat) (a b : String) (hab : a ≠ b)
    (t : Task) (ht : findTask s i = some t) (hown : t.owner = none) :
    (claim_task s i a false).1.1 = true ∧
    (claim_task (claim_task s i a false).2 i b false).1 =
      (false, some ("already claimed by " ++ a)) := by
  obtain ⟨hok, hfind⟩ :=
    claim_task_succeeds s i a false t ht (Or.inl hown)
  refine ⟨by rw [hok], ?_⟩
  rw [claim_task_fails (claim_task s i a false).2 i b a _ hfind rfl hab]

/-- C1 witness: alice and bob race for the unowned fixture task 1; alice's
transaction lands first and wins, bob's fails naming alice. -/
theorem claim_exclusive_witness :
    (claim_task dbW 1 "alice" false).1.1 = true ∧
    (claim_task (claim_task dbW 1 "alice" false).2 1 "bob" false).1 =
      (false, some ("already claimed by " ++ "alice")) :=
  claim_exclusive dbW 1 "alice" "bob" (by decide) taskFree (by decide) rfl

/-- C3: completing a task that is already done is idempotent, for any caller,
note and force flag: the result is ok with info "already done" and the state
is returned untouched, so completed_at and every other field of the task are
unaltered. -/
theorem complete_already_done (s : DB) (i : Nat) (a note : String) (force : Bool)
    (t : Task) (ht : findTask s i = some t) (hdone : t.status = Status.done) :
    complete_task s i a note force = ((true, some "already done"), s) := by
  simp [complete_task, ht, hdone]

/-- C3 witness: a second complete on the finished fixture task 3 reports
already done and leaves the database exactly as it was. -/
theorem complete_already_done_witness :
    complete_task dbW 3 "alice" "" false = ((true, some "already done"), dbW) :=
  complete_already_done dbW 3 "alice" "" false taskDone (by decide) rfl

/-- C4: cancel on a task in terminal status done succeeds with info
"already done" and leaves the status done, with the whole state untouched;
cancel on a missing task returns ok false with reason "not found"; both
outcomes are result values of the pure function, not raised faults. -/
theorem cancel_task_terminal (s : DB) (i j : Nat) (a : String)
    (t : Task) (ht : findTask s i = some t) (hdone : t.status = Status.done)
    (hj : findTask s j = none) :
    cancel_task s i a = ((true, some "already done"), s)
  ∧ findTask (cancel_task s i a).2 i = some t
  ∧ t.status = Status.done
  ∧ cancel_task s j a = ((false, some "not found"), s) := by
  have hres : cancel_task s i a = ((true, some "already done"), s) := by
    simp [cancel_task, ht, hdone]
  exact ⟨hres, by rw [hres]; exact ht, hdone, by simp [cancel_task, hj]⟩

/-- C4 witness: cancelling the finished fixture task 3 reports already done
and keeps it done; cancelling the missing id 99 reports not found. -/
theorem cancel_task_terminal_witness :
    cancel_task dbW 3 "bob" = ((true, some "already done"), dbW)
  ∧ findTask (cancel_task dbW 3 "bob").2 3 = some taskDone
  ∧ taskDone.status = Status.done
  ∧ cancel_task dbW 99 "bob" = ((false, some "not found"), dbW) :=
  cancel_task_terminal dbW 3 99 "bob" taskDone (by decide) rfl (by decide)

/-- C5: blocking a pair whose dependency edge is absent inserts the edge and
forces the task status to blocked whatever its prior status was (no
hypothesis constrains it, terminal states included); blocking a pair whose
edge already exists fails with "already exists" as a result value and
changes nothing. -/
theorem block_task_correct (s : DB) (i bby : Nat) (t : Task)
    (ht : findTask s i = some t) :
    ((i, bby) ∉ s.deps →
       (block_task s i bby).1 = (true, none)
     ∧ (i, bby) ∈ (block_task s i bby).2.deps
     ∧ findTask (block_task s i bby).2 i =
         some { t with status := Status.blocked, updatedAt := s.now })
  ∧ ((i, bby) ∈ s.deps →
       block_task s i bby = ((false, some "already exists"), s)) := by
  constructor
  · intro hmem
    have h2 : block_task s i bby =
        ((true, none),
          log_activity { s with deps := s.deps ++ [(i, bby)],
                                tasks := setTask s.tasks i (fun u =>
                                  { u with status := Status.blocked, updatedAt := s.now }) }
            "" "task_blocked" "task" i "") := by
      simp [block_task, hmem]
    refine ⟨by rw [h2], by rw [h2]; simp [log_activity], ?_⟩
    rw [h2, findTask_log_activity]
    show (setTask s.tasks i _).find? (fun u => u.id == i) = _
    rw [find?_setTask s.tasks i (fun u =>
      { u with status := Status.blocked, updatedAt := s.now }) (fun _ => rfl)]
    unfold findTask at ht
    rw [ht]
    rfl
  · intro hmem
    simp [block_task, hmem]

/-- C5 witness: blocking fixture task 1 on task 2 inserts the edge and turns
task 1 blocked; repeating the pair on a state that already has the edge
fails with already exists and returns that state unchanged. -/
theorem block_task_correct_witness :
    ((block_task dbW 1 2).1 = (true, none)
   ∧ (1, 2) ∈ (block_task dbW 1 2).2.deps
   ∧ findTask (block_task dbW 1 2).2 1 =
       some { taskFree with status := Status.blocked, updatedAt := dbW.now })
  ∧ block_task (block_task dbW 1 2).2 1 2 =
      ((false, some "already exists"), (block_task dbW 1 2).2) :=
  ⟨(block_task_correct dbW 1 2 taskFree (by decide)).1 (by decide),
   (block_task_correct (block_task dbW 1 2).2 1 2
      { taskFree with status := Status.blocked, updatedAt := dbW.now }
      (by decide)).2 (by decide)⟩

/-- The next-task preference is reflexive. -/
theorem prefBefore_refl (a : Task) : prefBefore a a :=
  Or.inr ⟨rfl, le_refl _⟩

/-- The next-task preference is total. -/
theorem prefBefore_total (a b : Task) : prefBefore a b ∨ prefBefore b a := by
  unfold prefBefore
  omega

/-- The next-task preference is transitive. -/
theorem prefBefore_trans (a b c : Task) :
    prefBefore a b → prefBefore b c → prefBefore a c := by
  unfold prefBefore
  omega

/-- The fold over candidates returns none exactly on the empty list. -/
theorem pickBest_eq_none (l : List Task) : pickBest l = none ↔ l = [] := by
  cases l with
  | nil => simp [pickBest]
  | cons t ts =>
    simp only [pickBest]
    cases pickBest ts with
    | none => simp [pickBetter]
    | some u =>
      by_cases h : prefBefore t u <;> simp [pickBetter, h]

/-- The fold over candidates returns an element of the list. -/
theorem pickBest_mem (l : List Task) (t : Task) (h : pickBest l = some t) :
    t ∈ l := by
  induction l generalizing t with
  | nil => simp [pickBest] at h
  | cons a l ih =>
    simp only [pickBest] at h
    cases hb : pickBest l with
    | none =>
      rw [hb] at h
      simp only [pickBetter] at h
      obtain rfl : a = t := Option.some.inj h
      exact List.mem_cons_self a l
    | some u =>
      rw [hb] at h
      simp only [pickBetter] at h
      by_cases hp : prefBefore a u
      · rw [if_pos hp] at h
        obtain rfl : a = t := Option.some.inj h
        exact List.mem_cons_self a l
      · rw [if_neg hp] at h
        obtain rfl : u = t := Option.some.inj h
        exact List.mem_cons_of_mem a (ih _ hb)

/-- The fold over candidates returns a most preferred element. -/
theorem pickBest_best (l : List Task) (t : Task) (h : pickBest l = some t) :
    ∀ u ∈ l, prefBefore t u := by
  induction l generalizing t with
  | nil => simp [pickBest] at h
  | cons a l ih =>
    intro u hu
    simp only [pickBest] at h
    cases hb : pickBest l with
    | none =>
      rw [hb] at h
      simp only [pickBetter] at h
      obtain rfl : a = t := Option.some.inj h
      have hl : l = [] := (pickBest_eq_none l).mp hb
      subst hl
      obtain rfl : u = a := List.mem_singleton.mp hu
      exact prefBefore_refl _
    | some v =>
      rw [hb] at h
      simp only [pickBetter] at h
      by_cases hp : prefBefore a v
      · rw [if_pos hp] at h
        obtain rfl : a = t := Option.some.inj h
        rcases List.mem_cons.mp hu with rfl | hu2
        · exact prefBefore_refl _
        · exact prefBefore_trans _ _ _ hp (ih _ hb _ hu2)
      · rw [if_neg hp] at h
        obtain rfl : v = t := Option.some.inj h
        rcases List.mem_cons.mp hu with rfl | hu2
        · rcases prefBefore_total u v with h1 | h1
          · exact absurd h1 hp
          · exact h1
        · exact ih _ hb _ hu2

/-- C6: next_task returns a task the agent owns in status in_progress when
one exists; otherwise, when an unowned pending task exists, it returns an
unowned pending task preferred over every other unowned pending task by
priority descending then id (creation order) ascending; otherwise none. -/
theorem get_next_task_correct (s : DB) (agent : String) :
    ((∃ t ∈ s.tasks, t.owner = some agent ∧ t.status = Status.inProgress) →
       ∃ t', get_next_task s agent = some t' ∧ t' ∈ s.tasks ∧
         t'.owner = some agent ∧ t'.status = Status.inProgress)
  ∧ ((∀ t ∈ s.tasks, ¬(t.owner = some agent ∧ t.status = Status.inProgress)) →
     (∃ t ∈ s.tasks, t.owner = none ∧ t.status = Status.pending) →
       ∃ t', get_next_task s agent = some t' ∧ t' ∈ s.tasks ∧
         t'.owner = none ∧ t'.status = Status.pending ∧
         ∀ u ∈ s.tasks, u.owner = none → u.status = Status.pending →
           u.priority < t'.priority ∨ (t'.priority = u.priority ∧ t'.id ≤ u.id))
  ∧ ((∀ t ∈ s.tasks, ¬(t.owner = some agent ∧ t.status = Status.inProgress)) →
     (∀ t ∈ s.tasks, ¬(t.owner = none ∧ t.status = Status.pending)) →
       get_next_task s agent = none) := by
  refine ⟨?_, ?_, ?_⟩
  · rintro ⟨t, htmem, hto, hts⟩
    have hsome : (s.tasks.find? (fun t =>
        decide (t.owner = some agent ∧ t.status = Status.inProgress))).isSome := by
      rw [List.find?_isSome]
      exact ⟨t, htmem, by simp [hto, hts]⟩
    obtain ⟨t', ht'⟩ := Option.isSome_iff_exists.mp hsome
    have hprop := List.find?_some ht'
    simp only [decide_eq_true_eq] at hprop
    exact ⟨t', by simp only [get_next_task, ht'], List.mem_of_find?_eq_some ht',
      hprop.1, hprop.2⟩
  · intro hno hex
    have hnone : s.tasks.find? (fun t =>
        decide (t.owner = some agent ∧ t.status = Status.inProgress)) = none := by
      rw [List.find?_eq_none]
      intro x hx
      simpa using hno x hx
    obtain ⟨t, htmem, hto, hts⟩ := hex
    have hmemf : t ∈ s.tasks.filter (fun t =>
        decide (t.owner = none ∧ t.status = Status.pending)) :=
      List.mem_filter.mpr ⟨htmem, by simp [hto, hts]⟩
    obtain ⟨t', ht'⟩ : ∃ t', pickBest (s.tasks.filter (fun t =>
        decide (t.owner = none ∧ t.status = Status.pending))) = some t' := by
      cases hpb : pickBest (s.tasks.filter (fun t =>
          decide (t.owner = none ∧ t.status = Status.pending))) with
      | none =>
        rw [pickBest_eq_none] at hpb
        rw [hpb] at hmemf
        exact absurd hmemf (List.not_mem_nil t)
      | some u => exact ⟨u, rfl⟩
    have hmem' := List.mem_filter.mp (pickBest_mem _ _ ht')
    have hprop := hmem'.2
    simp only [decide_eq_true_eq] at hprop
    refine ⟨t', by simp only [get_next_task, hnone, ht'], hmem'.1, hprop.1, hprop.2, ?_⟩
    intro u humem huo hust
    have humf : u ∈ s.tasks.filter (fun t =>
        decide (t.owner = none ∧ t.status = Status.pending)) :=
      List.mem_filter.mpr ⟨humem, by simp [huo, hust]⟩
    exact pickBest_best _ _ ht' u humf
  · intro hno hnop
    have hnone : s.tasks.find? (fun t =>
        decide (t.owner = some agent ∧ t.status = Status.inProgress)) = none := by
      rw [List.find?_eq_none]
      intro x hx
      simpa using hno x hx
    have hfil : s.tasks.filter (fun t =>
        decide (t.owner = none ∧ t.status = Status.pending)) = [] := by
      rw [List.filter_eq_nil_iff]
      intro x hx
      simpa using hnop x hx
    simp only [get_next_task, hnone, hfil, pickBest]

/-- C6 witness: on the fixture board, bob gets his in_progress task 4; the
unregistered charlie gets the unowned pending task 1, which beats the other
unowned pending task 5 on priority; on an empty board the result is none. -/
theorem get_next_task_correct_witness :
    (∃ t', get_next_task dbW "bob" = some t' ∧ t' ∈ dbW.tasks ∧
       t'.owner = some "bob" ∧ t'.status = Status.inProgress)
  ∧ (∃ t', get_next_task dbW "charlie" = some t' ∧ t' ∈ dbW.tasks ∧
       t'.owner = none ∧ t'.status = Status.pending ∧
       ∀ u ∈ dbW.tasks, u.owner = none → u.status = Status.pending →
         u.priority < t'.priority ∨ (t'.priority = u.priority ∧ t'.id ≤ u.id))
  ∧ get_next_task ⟨[], [], [], [], [], 0⟩ "alice" = none :=
  ⟨(get_next_task_correct dbW "bob").1 ⟨taskInProg, by decide, rfl, rfl⟩,
   (get_next_task_correct dbW "charlie").2.1 (by decide)
     ⟨taskFree, by decide, rfl, rfl⟩,
   (get_next_task_correct ⟨[], [], [], [], [], 0⟩ "alice").2.2
     (by simp) (by simp)⟩

/-- C8: unread_count counts exactly the messages addressed directly to the
agent that are unread; prepending any broadcast, whatever its read state,
never changes the count, while prepending an unread direct message to the
agent raises it by one. -/
theorem get_unread_count_correct (s : DB) (agent : String) :
    (get_unread_count s agent =
       s.messages.countP (fun m => decide (m.toAgent = some agent ∧ m.readAt = none)))
  ∧ (∀ m : Message, m.toAgent = none →
       get_unread_count { s with messages := m :: s.messages } agent =
         get_unread_count s agent)
  ∧ (∀ m : Message, m.toAgent = some agent → m.readAt = none →
       get_unread_count { s with messages := m :: s.messages } agent =
         get_unread_count s agent + 1) := by
  refine ⟨?_, ?_, ?_⟩
  · rw [get_unread_count, List.countP_eq_length_filter]
  · intro m hm
    have hp : (decide (m.toAgent = some agent ∧ m.readAt = none)) = false := by
      simp [hm]
    simp only [get_unread_count, List.filter_cons, hp]
    rw [if_neg (by simp)]
  · intro m hm hr
    have hp : (decide (m.toAgent = some agent ∧ m.readAt = none)) = true := by
      simp [hm, hr]
    simp only [get_unread_count, List.filter_cons, hp]
    simp

/-- C8 witness: on the fixture messages, an extra broadcast leaves bob's
unread count alone while an extra unread direct message raises it by one. -/
theorem get_unread_count_correct_witness :
    (get_unread_count { dbW with messages := msgBroadcast :: dbW.messages } "bob" =
       get_unread_count dbW "bob")
  ∧ (get_unread_count { dbW with messages := msgDirect :: dbW.messages } "bob" =
       get_unread_count dbW "bob" + 1) :=
  ⟨(get_unread_count_correct dbW "bob").2.1 msgBroadcast rfl,
   (get_unread_count_correct dbW "bob").2.2 msgDirect rfl rfl⟩

/-- Successful reset: when the task exists and the terminal-or-force gate
passes, the result is ok and the task row ends pending with owner,
claimed_at and completed_at cleared. -/
theorem reset_task_succeeds (s : DB) (i : Nat) (a : String) (force : Bool) (t : Task)
    (ht : findTask s i = some t)
    (hc : t.status = Status.done ∨ t.status = Status.cancelled ∨ force = true) :
    (reset_task s i a force).1 = (true, none) ∧
    findTask (reset_task s i a force).2 i =
      some
        { t with status := Status.pending, owner := none,
                 claimedAt := none, completedAt := none, updatedAt := s.now } := by
  constructor
  · simp [reset_task, ht, hc]
  · have h2 : (reset_task s i a force).2 =
        log_activity { s with tasks := setTask s.tasks i (fun u =>
          { u with status := Status.pending, owner := none,
                   claimedAt := none, completedAt := none, updatedAt := s.now }) }
          a "task_reset" "task" i t.subject := by
      simp [reset_task, ht, hc]
    rw [h2, findTask_log_activity]
    show (setTask s.tasks i _).find? (fun u => u.id == i) = _
    rw [find?_setTask s.tasks i (fun u =>
      { u with status := Status.pending, owner := none,
               claimedAt := none, completedAt := none, updatedAt := s.now }) (fun _ => rfl)]
    unfold findTask at ht
    rw [ht]
    rfl

end Clawctl

namespace Dashboard

open Clawctl

/-- C7: a request whose path the server classifies as an api path and not as
a static asset is answered 401 unauthorized by the before-request hook
whenever its token misses or differs from the configured one, so no route
handler runs; a static-asset path passes the hook with no token at all. -/
theorem check_token_correct :
    (∀ (TOKEN : String) (req : Request),
       strStartsWith req.path "/api" = true →
       (req.path == "/" || strEndsWith req.path ".html") = false →
       req.token ≠ some TOKEN →
       check_token TOKEN req = some unauthorizedReply)
  ∧ (∀ (TOKEN : String) (req : Request),
       (req.path == "/" || strEndsWith req.path ".html") = true →
       check_token TOKEN req = none) := by
  constructor
  · intro TOKEN req hapi hstatic htok
    have htok2 : (req.token == some TOKEN) = false := beq_eq_false_iff_ne.mpr htok
    simp [check_token, hstatic, hapi, htok2]
  · intro TOKEN req hstatic
    simp [check_token, hstatic]

/-- C7 witness: the board api path without a token is rejected 401; the root
static path passes with no token. -/
theorem check_token_correct_witness :
    check_token "secret" ⟨"/api/board", none⟩ = some unauthorizedReply
  ∧ check_token "secret" ⟨"/", none⟩ = none :=
  ⟨check_token_correct.1 "secret" ⟨"/api/board", none⟩ (by decide) (by decide)
     (by decide),
   check_token_correct.2 "secret" ⟨"/", none⟩ (by decide)⟩

/-- C9: the complete endpoint replies 200 with success true on every input
(there is no conflict branch at all: the reply does not inspect the engine
result), and the state it commits is exactly the engine complete called with
force set to true — so missing tasks and foreign owners also get 200. -/
theorem complete_endpoint_always_succeeds (s : DB) (taskId : Nat) (body : ReqBody) :
    (complete_endpoint s taskId body).2 = ⟨200, true⟩
  ∧ (complete_endpoint s taskId body).1 =
      (complete_task s taskId (body.agent.getD "dashboard") (body.note.getD "") true).2 :=
  ⟨rfl, rfl⟩

/-- C10: a reset request whose body omits force defaults it to true, so any
existing task — terminal or not — is reset to pending with owner, claimed_at
and completed_at cleared and the reply is 200; only an explicit force false
restores the terminal-only precondition, yielding 409 and an unchanged state
on a non-terminal task. -/
theorem reset_endpoint_default_force :
    (∀ (s : DB) (i : Nat) (body : ReqBody), body.force = none →
       ∀ t, findTask s i = some t →
         (reset_endpoint s i body).2 = ⟨200, true⟩ ∧
         findTask (reset_endpoint s i body).1 i =
           some
             { t with status := Status.pending, owner := none,
                      claimedAt := none, completedAt := none, updatedAt := s.now })
  ∧ (∀ (s : DB) (i : Nat) (body : ReqBody), body.force = some false →
       ∀ t, findTask s i = some t →
         t.status ≠ Status.done → t.status ≠ Status.cancelled →
         (reset_endpoint s i body).2 = ⟨409, false⟩ ∧
         (reset_endpoint s i body).1 = s) := by
  constructor
  · intro s i body hf t ht
    obtain ⟨hok, hfind⟩ := reset_task_succeeds s i (body.agent.getD "dashboard")
      true t ht (Or.inr (Or.inr rfl))
    have hres : reset_endpoint s i body =
        ((reset_task s i (body.agent.getD "dashboard") true).2, ⟨200, true⟩) := by
      simp [reset_endpoint, hf, hok]
    exact ⟨by rw [hres], by rw [hres]; exact hfind⟩
  · intro s i body hf t ht h1 h2
    have hfail : reset_task s i (body.agent.getD "dashboard") false =
        ((false, some "not terminal"), s) := by
      simp only [reset_task, ht]
      rw [if_neg (by simp [h1, h2])]
    have hres : reset_endpoint s i body = (s, ⟨409, false⟩) := by
      simp [reset_endpoint, hf, hfail]
    exact ⟨by rw [hres], by rw [hres]⟩

/-- C10 witness: resetting the fixture task 2 — claimed, not terminal — with
a body that omits force succeeds 200 and clears it to pending; sending force
false instead is refused 409 and changes nothing. -/
theorem reset_endpoint_default_force_witness :
    ((reset_endpoint dbW 2 ⟨none, none, none, none⟩).2 = ⟨200, true⟩ ∧
     findTask (reset_endpoint dbW 2 ⟨none, none, none, none⟩).1 2 =
       some
         { taskOwned with status := Status.pending, owner := none,
                          claimedAt := none, completedAt := none, updatedAt := dbW.now })
  ∧ ((reset_endpoint dbW 2 ⟨none, none, none, some false⟩).2 = ⟨409, false⟩ ∧
     (reset_endpoint dbW 2 ⟨none, none, none, some false⟩).1 = dbW) :=
  ⟨reset_endpoint_default_force.1 dbW 2 ⟨none, none, none, none⟩ rfl taskOwned
     (by decide),
   reset_endpoint_default_force.2 dbW 2 ⟨none, none, none, some false⟩ rfl taskOwned
     (by decide) (by decide) (by decide)⟩

end Dashboard



